import Mathlib

/-!
# Verification of the payment_views streamed-response decoder and UI handlers

A shallow embedding of `src/streamlit_app.py` together with a model of the
streamed-response decoder of the repository (present in its streaming
variants but absent from the checked-in source file), as documented in the
specification.  Pure Python functions become Lean functions; the Streamlit
session state becomes an explicit state record threaded through the handlers;
external collaborators (the analytics API, the warehouse session) become
explicit inputs describing their observable outcome.
-/

namespace PaymentViews

/-! ## Spec-modelled streamed response decoder

Modelled from the spec: the streaming variants of the repository contain an
incremental decoder for server-sent events (content deltas carrying a block
index and a kind among text, sql and suggestions, plus status and error events);
that variant is not among the checked-in source files, so the decoder below
follows the algorithm of the specification (spec sections 3, 4.1 and 6) literally:
accumulator state `(previous_block_index, previous_kind,
previous_suggestion_index)` initialised to sentinels, a new block whenever the
event is not a content delta or its block index differs, a SQL fence closed
before processing any new-block event while the previous kind was `sql`, and
dispatch on the event kind. -/

/-- The kind of a content-delta event. -/
inductive Kind
  | text
  | sql
  | suggestions
deriving DecidableEq, Repr

/-- Payload of a content-delta event: a text delta, a SQL statement delta, or
a suggestion delta carrying its own suggestion index. -/
inductive DeltaPayload
  | textDelta (s : String)
  | sqlDelta (s : String)
  | suggestionsDelta (suggestionIndex : Nat) (s : String)
deriving DecidableEq, Repr

/-- The kind carried by a content-delta payload. -/
def kindOf : DeltaPayload → Kind
  | .textDelta _ => Kind.text
  | .sqlDelta _ => Kind.sql
  | .suggestionsDelta _ _ => Kind.suggestions

/-- One server-sent event of a streamed analytics response. -/
inductive Event
  | contentDelta (blockIndex : Nat) (payload : DeltaPayload)
  | statusEvent (message : String)
  | errorEvent (payload : String)
deriving DecidableEq, Repr

/-- Accumulator state of the decoder; `none` is the "no previous" sentinel. -/
structure DecState where
  prevBlockIndex : Option Nat
  prevKind : Option Kind
  prevSuggIndex : Option Nat
deriving DecidableEq, Repr

/-- The fresh accumulator state created for each user question. -/
def initState : DecState := ⟨none, none, none⟩

/-- A display fragment emitted by the decoder, kept symbolic so that fence
structure can be reasoned about; `Frag.render` maps it to the emitted text. -/
inductive Frag
  | sqlOpen
  | sqlClose
  | textFrag (s : String)
  | sqlFrag (s : String)
  | suggIntro
  | suggMarker
  | suggFrag (s : String)
deriving DecidableEq, Repr

/-- The text emitted for each fragment. -/
def Frag.render : Frag → String
  | .sqlOpen => "```sql\n"
  | .sqlClose => "\n```\n\n"
  | .textFrag s => s
  | .sqlFrag s => s
  | .suggIntro => "Here are some questions you can ask:\n"
  | .suggMarker => "\n- "
  | .suggFrag s => s

/-- Spec step 2: a new block begins when the event is not a content delta or
its block index differs from the previous one. -/
def isNewBlockFor (s : DecState) : Event → Bool
  | .contentDelta bi _ => s.prevBlockIndex != some bi
  | _ => true

/-- Spec step 3: close the open SQL fence before processing any new-block
event while the previously active kind was `sql`. -/
def fenceCloseFrags (s : DecState) (isNewBlock : Bool) : List Frag :=
  if s.prevKind == some Kind.sql && isNewBlock then [Frag.sqlClose] else []

/-- Spec step 4, content-delta dispatch: fragments emitted for one delta and
the updated accumulator state. -/
def stepContent (s : DecState) (bi : Nat) (p : DeltaPayload) (isNewBlock : Bool) :
    List Frag × DecState :=
  match p with
  | .textDelta t =>
      ([Frag.textFrag t], ⟨some bi, some Kind.text, s.prevSuggIndex⟩)
  | .sqlDelta t =>
      ((if isNewBlock then [Frag.sqlOpen] else []) ++ [Frag.sqlFrag t],
       ⟨some bi, some Kind.sql, s.prevSuggIndex⟩)
  | .suggestionsDelta si t =>
      let markers :=
        if isNewBlock then [Frag.suggIntro, Frag.suggMarker]
        else if s.prevSuggIndex != some si then [Frag.suggMarker]
        else []
      (markers ++ [Frag.suggFrag t], ⟨some bi, some Kind.suggestions, some si⟩)

/-- Result of one decode pass: the emitted fragments, the two externally-owned
outcome fields, the final accumulator state, and whether the pass was stopped
by a status or error event (as opposed to source exhaustion). -/
structure DecodeResult where
  frags : List Frag
  statusMsg : Option String
  errorPayload : Option String
  final : DecState
  stopped : Bool
deriving DecidableEq, Repr

/-- The decode loop of spec section 4.1, from an arbitrary accumulator state. -/
def decodeFrom (s : DecState) : List Event → DecodeResult
  | [] => ⟨[], none, none, s, false⟩
  | e :: rest =>
    let nb := isNewBlockFor s e
    let closing := fenceCloseFrags s nb
    match e with
    | .statusEvent m => ⟨closing, some m, none, s, true⟩
    | .errorEvent p => ⟨closing, none, some p, s, true⟩
    | .contentDelta bi p =>
      let out := stepContent s bi p nb
      let r := decodeFrom out.2 rest
      ⟨closing ++ out.1 ++ r.frags, r.statusMsg, r.errorPayload, r.final, r.stopped⟩

/-- One decode pass over a fresh accumulator, as created per user question. -/
def decode (evs : List Event) : DecodeResult := decodeFrom initState evs

/-! ## Embedding of `src/streamlit_app.py`

Content items are Python dictionaries; they are embedded as association
lists over a small JSON-ish value type.  Subscripting a missing key is a
Python `KeyError`, embedded as an `Except` failure. -/

/-- A JSON-ish value held in a content-item dictionary. -/
inductive JVal
  | jstr (s : String)
  | jlist (xs : List String)
  | jnum (n : Int)
deriving DecidableEq, Repr

/-- A content item: a Python dict from string keys to values. -/
def Item : Type := List (String × JVal)

instance : DecidableEq Item := inferInstanceAs (DecidableEq (List (String × JVal)))

instance : Repr Item := inferInstanceAs (Repr (List (String × JVal)))

/-- First-match key lookup in an item, as Python `item.get(key)`. -/
def lookupKey : Item → String → Option JVal
  | [], _ => none
  | (k, v) :: rest, key => if k == key then some v else lookupKey rest key

/-- A fault raised while handling a content item.  `keyError` is the Python
lookup fault from subscripting a missing key; `malformedEventError` is the
decode failure the specification calls for (never produced by the source). -/
inductive PyFault
  | keyError (key : String)
  | malformedEventError (field : String)
  | typeFault (msg : String)
deriving DecidableEq, Repr

/-- Python `item[key]`: the value, or a `KeyError` naming the key. -/
def getKey (item : Item) (key : String) : Except PyFault JVal :=
  match lookupKey item key with
  | some v => Except.ok v
  | none => Except.error (PyFault.keyError key)

/-- One observable UI effect of `display_message`. -/
inductive UIAction
  | markdownText (v : JVal)
  | suggestionButton (idx : Nat) (label : String)
  | sqlQuery (statement : JVal) (confidence : Option JVal)
deriving DecidableEq, Repr

/-- The per-item dispatch body of `display_message` (source lines 183-191):
subscript `item["type"]`, then on `"text"` render `item["text"]`, on
`"suggestions"` enumerate `item["suggestions"]` into one button per
suggestion index (the Python `enumerate` over a string iterates characters and
over an int raises a `TypeError`), on `"sql"` pass `item["statement"]` and
`item.get("confidence")` on to the SQL renderer; any other type is ignored. -/
def displayItem (item : Item) : Except PyFault (List UIAction) := do
  let t ← getKey item "type"
  if t == JVal.jstr "text" then
    let tx ← getKey item "text"
    pure [UIAction.markdownText tx]
  else if t == JVal.jstr "suggestions" then
    let sg ← getKey item "suggestions"
    match sg with
    | JVal.jlist ss =>
        pure (((List.range ss.length).zip ss).map
          (fun pr => UIAction.suggestionButton pr.1 pr.2))
    | JVal.jstr s =>
        pure (((List.range s.toList.length).zip s.toList).map
          (fun pr => UIAction.suggestionButton pr.1 (String.singleton pr.2)))
    | JVal.jnum _ => Except.error (PyFault.typeFault "int object is not iterable")
  else if t == JVal.jstr "sql" then
    let stmt ← getKey item "statement"
    pure [UIAction.sqlQuery stmt (lookupKey item "confidence")]
  else
    pure []

/-- `display_message`: process the content items in order; the first fault
aborts the pass, as an uncaught Python exception would. -/
def display_message : List Item → Except PyFault (List UIAction)
  | [] => Except.ok []
  | item :: rest => do
    let acts ← displayItem item
    let more ← display_message rest
    pure (acts ++ more)

/-- A warning object from the analytics response; `message` may be absent
(the source reads it with `warning.get("message", "")`). -/
structure Warning where
  message : Option String
deriving DecidableEq, Repr

/-- The JSON body returned by the analytics API after `json.loads`: the
fields the source reads, each optional where the source uses `.get`. -/
structure ParsedContent where
  requestId : Option String
  errorCode : Option String
  message : Option String
  msgContent : List Item
  warnings : Option (List Warning)
deriving DecidableEq, Repr

/-- The raw API response: HTTP status plus the parsed JSON body. -/
structure ApiResp where
  status : Nat
  parsed : ParsedContent
deriving DecidableEq, Repr

/-- The error banner built by `get_analyst_response` (source lines 161-167). -/
def analystErrorMsg (resp : ApiResp) : String :=
  let st := toString resp.status
  let rid := resp.parsed.requestId.getD "N/A"
  let ec := resp.parsed.errorCode.getD "N/A"
  let m := resp.parsed.message.getD "No message"
  "🚨 An Analyst API error has occurred 🚨\n\n* response code: `" ++ st ++
    "`\n* request-id: `" ++ rid ++ "`\n* error code: `" ++ ec ++
    "`\n\nMessage:\n```\n" ++ m ++ "\n```"

/-- `get_analyst_response`: returns the parsed content paired with `none` on
HTTP status below 400, and with the formatted error message otherwise.  The
network call itself is external; its observable outcome is the `resp`
argument. -/
def get_analyst_response (resp : ApiResp) : ParsedContent × Option String :=
  if resp.status < 400 then (resp.parsed, none)
  else (resp.parsed, some (analystErrorMsg resp))

/-- A conversation message held in session state. -/
structure Message where
  role : String
  content : List Item
  requestId : Option String
deriving DecidableEq, Repr

/-- The Streamlit session state fields the handlers touch. -/
structure SessionState where
  messages : List Message
  activeSuggestion : Option String
  warnings : List Warning
  fireAPIErrorNotify : Bool
deriving Repr

/-- `reset_session_state`: clears messages, active suggestion and warnings
(the pending-error flag is not touched by the source). -/
def reset_session_state (s : SessionState) : SessionState :=
  ⟨[], none, [], s.fireAPIErrorNotify⟩

/-- The single-text-item content list built for a prompt or error message. -/
def textContent (t : String) : List Item :=
  [[("type", JVal.jstr "text"), ("text", JVal.jstr t)]]

/-- `process_user_input`: reset the per-turn warnings, append the user
message, obtain the analyst response (the API outcome is the `resp`
argument), build the analyst message — from the response content on success,
from the error banner on failure, in which case the `fire_API_error_notify`
flag is set instead of raising — then overwrite the warnings from the
response when it carries any. -/
def process_user_input (s : SessionState) (prompt : String) (resp : ApiResp) :
    SessionState :=
  let warningsReset : List Warning := []
  let userMsg : Message := ⟨"user", textContent prompt, none⟩
  let out := get_analyst_response resp
  let response := out.1
  let analystMsg : Message :=
    match out.2 with
    | none => ⟨"analyst", response.msgContent, response.requestId⟩
    | some errMsg => ⟨"analyst", textContent errMsg, response.requestId⟩
  let fire : Bool :=
    match out.2 with
    | none => s.fireAPIErrorNotify
    | some _ => true
  let finalWarnings : List Warning :=
    match response.warnings with
    | some ws => ws
    | none => warningsReset
  ⟨s.messages ++ [userMsg] ++ [analystMsg], s.activeSuggestion, finalWarnings, fire⟩

/-- A pandas dataframe, abstracted to its rows. -/
structure DataFrame where
  rows : List (List String)
deriving DecidableEq, Repr

/-- Observable outcome of `session.sql(query).to_pandas()`: a dataframe, or a
`SnowparkSQLException` rendered as its string form. -/
inductive QueryOutcome
  | ok (df : DataFrame)
  | sqlError (e : String)
deriving DecidableEq, Repr

/-- `get_query_exec_result`: wrap the warehouse call, returning `(df, none)`
on success and `(none, str(e))` when a `SnowparkSQLException` is caught. -/
def get_query_exec_result (_query : String) (outcome : QueryOutcome) :
    Option DataFrame × Option String :=
  match outcome with
  | .ok df => (some df, none)
  | .sqlError e => (none, some e)

/-- The substring that `display_warnings` skips over. -/
def duplicateSynonymNeedle : String := "synonyms are duplicated in the same table"

/-- `warning.get("message", "")`. -/
def warningMsg (w : Warning) : String := w.message.getD ""

/-- Character-list prefix test. -/
def charsPrefixOf : List Char → List Char → Bool
  | [], _ => true
  | _ :: _, [] => false
  | a :: as, b :: bs => a == b && charsPrefixOf as bs

/-- Character-list substring test: the needle occurs somewhere in the hay. -/
def charsInfixOf (needle : List Char) : List Char → Bool
  | [] => charsPrefixOf needle []
  | c :: cs => charsPrefixOf needle (c :: cs) || charsInfixOf needle cs

/-- The Python test `needle in hay` on strings. -/
def strContains (hay needle : String) : Bool :=
  charsInfixOf needle.toList hay.toList

/-- `display_warnings`: show the message of each warning, skipping the known
"duplicate synonym" warnings (source lines 256-261); the returned list holds
the messages actually displayed, in order. -/
def display_warnings : List Warning → List String
  | [] => []
  | w :: ws =>
    let msg := warningMsg w
    if strContains msg duplicateSynonymNeedle then display_warnings ws
    else msg :: display_warnings ws

/-! ## Analysis helpers for the decoder -/

/-- Recognises the SQL fence opener fragment. -/
def isSqlOpen : Frag → Bool
  | .sqlOpen => true
  | _ => false

/-- Recognises the SQL fence closer fragment. -/
def isSqlClose : Frag → Bool
  | .sqlClose => true
  | _ => false

/-- Recognises a suggestion list-item marker fragment. -/
def isSuggMarker : Frag → Bool
  | .suggMarker => true
  | _ => false

/-- Fence-discipline scan over a fragment list.  The boolean tracks whether a
SQL fence is currently open; `none` signals a violation: an opener inside an
open fence, a closer or SQL text outside one, or non-SQL content (text,
suggestion intro, marker or suggestion text) inside one.  `some b` returns
whether a fence is still open at the end. -/
def scanFence : Bool → List Frag → Option Bool
  | b, [] => some b
  | b, f :: fs =>
    match f, b with
    | .sqlOpen, false => scanFence true fs
    | .sqlClose, true => scanFence false fs
    | .sqlFrag _, true => scanFence true fs
    | .textFrag _, false => scanFence false fs
    | .suggIntro, false => scanFence false fs
    | .suggMarker, false => scanFence false fs
    | .suggFrag _, false => scanFence false fs
    | _, _ => none

/-- Well-formedness of an event stream relative to the previous
block index and kind of the accumulator, per the data model of the spec: a
block is one logical unit,
so two consecutive content deltas with the same block index carry the same
kind.  Status and error events end the decode pass and constrain nothing. -/
def ChainWF : Option Nat → Option Kind → List Event → Bool
  | _, _, [] => true
  | pbi, pk, Event.contentDelta bi p :: rest =>
    (if pbi == some bi then pk == some (kindOf p) else true) &&
      ChainWF (some bi) (some (kindOf p)) rest
  | pbi, pk, _ :: rest => ChainWF pbi pk rest

/-- Small-step relation presentation of one decode pass, mirroring
`decodeFrom` clause by clause; used to state determinism of decoding. -/
inductive Decodes : DecState → List Event → DecodeResult → Prop
  | exhausted (s : DecState) :
      Decodes s [] ⟨[], none, none, s, false⟩
  | stopStatus (s : DecState) (m : String) (rest : List Event) :
      Decodes s (Event.statusEvent m :: rest)
        ⟨fenceCloseFrags s true, some m, none, s, true⟩
  | stopError (s : DecState) (p : String) (rest : List Event) :
      Decodes s (Event.errorEvent p :: rest)
        ⟨fenceCloseFrags s true, none, some p, s, true⟩
  | delta (s : DecState) (bi : Nat) (p : DeltaPayload) (rest : List Event)
      (r : DecodeResult)
      (h : Decodes (stepContent s bi p (s.prevBlockIndex != some bi)).2 rest r) :
      Decodes s (Event.contentDelta bi p :: rest)
        ⟨fenceCloseFrags s (s.prevBlockIndex != some bi) ++
            (stepContent s bi p (s.prevBlockIndex != some bi)).1 ++ r.frags,
          r.statusMsg, r.errorPayload, r.final, r.stopped⟩


/-! ## Helper lemmas -/

/-- A sample well-formed event stream: one SQL block, one text block, then a
terminal status event. -/
def sampleRun : List Event :=
  [Event.contentDelta 0 (DeltaPayload.sqlDelta "SELECT 1"),
   Event.contentDelta 1 (DeltaPayload.textDelta "done"),
   Event.statusEvent "done"]

theorem scanFence_append (xs ys : List Frag) (b : Bool) :
    scanFence b (xs ++ ys) = (scanFence b xs).bind (fun b2 => scanFence b2 ys) := by
  induction xs generalizing b with
  | nil => simp [scanFence]
  | cons f fs ih =>
    cases f <;> cases b <;> simp [scanFence, ih]

theorem scanFence_count (fs : List Frag) :
    ∀ (b b2 : Bool), scanFence b fs = some b2 →
    fs.countP isSqlOpen + (cond b 1 0) = fs.countP isSqlClose + (cond b2 1 0) := by
  induction fs with
  | nil =>
    intro b b2 h
    simp [scanFence] at h
    subst h
    rfl
  | cons f fs ih =>
    intro b b2 h
    cases f <;> cases b <;> simp [scanFence] at h
    all_goals have h3 := ih _ _ h
    all_goals simp [List.countP_cons, isSqlOpen, isSqlClose] at h3 ⊢
    all_goals omega

theorem beqSqlText : (some Kind.text == some Kind.sql) = false := rfl

theorem beqSqlSql : (some Kind.sql == some Kind.sql) = true := rfl

theorem beqSqlSugg : (some Kind.suggestions == some Kind.sql) = false := rfl

theorem beqKText : (Kind.text == Kind.sql) = false := rfl

theorem beqKSql : (Kind.sql == Kind.sql) = true := rfl

theorem beqKSugg : (Kind.suggestions == Kind.sql) = false := rfl

theorem decodeFrom_fence_invariant (evs : List Event) :
    ∀ (s : DecState), ChainWF s.prevBlockIndex s.prevKind evs = true →
    scanFence (s.prevKind == some Kind.sql) (decodeFrom s evs).frags =
      some (!(decodeFrom s evs).stopped &&
        ((decodeFrom s evs).final.prevKind == some Kind.sql)) := by
  induction evs with
  | nil =>
    intro s _
    simp [decodeFrom, scanFence]
  | cons e rest ih =>
    intro s hwf
    cases e with
    | statusEvent m =>
      cases hsk : (s.prevKind == some Kind.sql) <;>
        simp [decodeFrom, isNewBlockFor, fenceCloseFrags, hsk, scanFence]
    | errorEvent p =>
      cases hsk : (s.prevKind == some Kind.sql) <;>
        simp [decodeFrom, isNewBlockFor, fenceCloseFrags, hsk, scanFence]
    | contentDelta bi p =>
      simp only [ChainWF, Bool.and_eq_true] at hwf
      obtain ⟨hguard, hrest⟩ := hwf
      have ihr := ih (stepContent s bi p (s.prevBlockIndex != some bi)).2
        (by cases p <;> simpa [stepContent, kindOf] using hrest)
      simp only [decodeFrom, isNewBlockFor]
      rw [scanFence_append, scanFence_append]
      cases hbi : (s.prevBlockIndex == some bi) with
      | true =>
        have hnb : (s.prevBlockIndex != some bi) = false := by simp [bne, hbi]
        rw [hnb] at ihr ⊢
        rw [hbi] at hguard
        simp only [if_pos rfl] at hguard
        have hk : s.prevKind = some (kindOf p) := by
          simpa [beq_iff_eq] using hguard
        cases p with
        | textDelta t =>
          simp only [kindOf] at hk
          simp only [stepContent, beqSqlText, beqKText] at ihr
          simp [stepContent, fenceCloseFrags, hk, scanFence, beqSqlText, beqKText, ihr]
        | sqlDelta t =>
          simp only [kindOf] at hk
          simp only [stepContent, beqSqlSql, beqKSql] at ihr
          simp [stepContent, fenceCloseFrags, hk, scanFence, beqSqlSql, beqKSql, ihr]
        | suggestionsDelta si t =>
          simp only [kindOf] at hk
          simp only [stepContent, beqSqlSugg, beqKSugg] at ihr
          cases hsi : (s.prevSuggIndex != some si) <;>
            simp [stepContent, fenceCloseFrags, hk, hsi, scanFence, beqSqlSugg, beqKSugg, ihr]
      | false =>
        have hnb : (s.prevBlockIndex != some bi) = true := by simp [bne, hbi]
        rw [hnb] at ihr ⊢
        cases p with
        | textDelta t =>
          simp only [stepContent, beqSqlText, beqKText] at ihr
          cases hsk : (s.prevKind == some Kind.sql) <;>
            simp [stepContent, fenceCloseFrags, hsk, scanFence, beqSqlText, beqKText, ihr]
        | sqlDelta t =>
          simp only [stepContent, beqSqlSql, beqKSql] at ihr
          cases hsk : (s.prevKind == some Kind.sql) <;>
            simp [stepContent, fenceCloseFrags, hsk, scanFence, beqSqlSql, beqKSql, ihr]
        | suggestionsDelta si t =>
          simp only [stepContent, beqSqlSugg, beqKSugg] at ihr
          cases hsk : (s.prevKind == some Kind.sql) <;>
            simp [stepContent, fenceCloseFrags, hsk, scanFence, beqSqlSugg, beqKSugg, ihr]

theorem decodeFrom_decodes (evs : List Event) : ∀ (s : DecState), Decodes s evs (decodeFrom s evs) := by
  induction evs with
  | nil => intro s; exact Decodes.exhausted s
  | cons e rest ih =>
    intro s
    cases e with
    | statusEvent m => exact Decodes.stopStatus s m rest
    | errorEvent p => exact Decodes.stopError s p rest
    | contentDelta bi p => exact Decodes.delta s bi p rest _ (ih _)

theorem Decodes.deterministic {s : DecState} {evs : List Event} {r1 r2 : DecodeResult}
    (h1 : Decodes s evs r1) (h2 : Decodes s evs r2) : r1 = r2 := by
  induction h1 generalizing r2 with
  | exhausted s => cases h2; rfl
  | stopStatus s m rest => cases h2; rfl
  | stopError s p rest => cases h2; rfl
  | delta s bi p rest r h ih =>
    cases h2 with
    | delta _ _ _ _ r2 h2 => rw [ih h2]

/-! ## Claim theorems -/

/-- C1 (evidence of the divergence): a text content item that is missing its
expected `text` field makes `display_message` fail with the unrelated lookup
fault `KeyError("text")`, not with the `MalformedEventError` the
specification calls for; the uncaught fault propagates out of the handler,
aborting the whole script run rather than only the decode pass. -/
theorem c1_missing_field_is_keyerror :
    display_message [[("type", JVal.jstr "text")]] =
      Except.error (PyFault.keyError "text") := rfl

/-- C2: `get_analyst_response` returns a non-`none` error message exactly
when the HTTP status of the upstream response is at least 400, and
`process_user_input` records the upstream failure by setting the
`fire_API_error_notify` flag (leaving it unchanged on success) instead of
raising — the handler is a total function of the session state. -/
theorem c2_api_error_surfaced (s : SessionState) (prompt : String) (resp : ApiResp) :
    ((get_analyst_response resp).2.isSome = decide (400 ≤ resp.status)) ∧
    ((process_user_input s prompt resp).fireAPIErrorNotify =
      ((get_analyst_response resp).2.isSome || s.fireAPIErrorNotify)) := by
  by_cases h : resp.status < 400
  · have h2 : ¬(400 ≤ resp.status) := by omega
    simp [get_analyst_response, process_user_input, h, h2]
  · have h2 : 400 ≤ resp.status := by omega
    simp [get_analyst_response, process_user_input, h, h2]

/-- C3: on the event sequence of two sql deltas for block 0 carrying
"SELECT " and "1" followed by a text delta for block 1 carrying "done", the
decoder emits exactly the fragment sequence
`["```sql\n", "SELECT ", "1", "\n```\n\n", "done"]`, in that order. -/
theorem c3_sql_then_text_fragment_sequence :
    ((decode [Event.contentDelta 0 (DeltaPayload.sqlDelta "SELECT "),
              Event.contentDelta 0 (DeltaPayload.sqlDelta "1"),
              Event.contentDelta 1 (DeltaPayload.textDelta "done")]).frags.map Frag.render) =
      ["```sql\n", "SELECT ", "1", "\n```\n\n", "done"] := rfl

/-- C4: on every well-formed event sequence (one kind per block, per the data
model), the emitted fragments obey the fence discipline — the scan accepts,
meaning every opened SQL fence is closed exactly once before any non-SQL
fragment outside it appears, and a fence is left open at the end precisely
when the stream was exhausted mid-SQL-block — and consequently the opener
count exceeds the closer count exactly by that mid-SQL-block remainder. -/
theorem c4_sql_fence_discipline (evs : List Event)
    (hwf : ChainWF none none evs = true) :
    scanFence false (decode evs).frags =
      some (!(decode evs).stopped && ((decode evs).final.prevKind == some Kind.sql)) ∧
    (decode evs).frags.countP isSqlOpen =
      (decode evs).frags.countP isSqlClose +
        (cond (!(decode evs).stopped && ((decode evs).final.prevKind == some Kind.sql)) 1 0) := by
  have h := decodeFrom_fence_invariant evs initState hwf
  have h0 : (initState.prevKind == some Kind.sql) = false := rfl
  rw [h0] at h
  refine ⟨h, ?_⟩
  have h2 := scanFence_count _ _ _ h
  simpa using h2

/-- Witness for C4 at a concrete well-formed stream. -/
theorem c4_witness : ChainWF none none sampleRun = true ∧
    (scanFence false (decode sampleRun).frags =
      some (!(decode sampleRun).stopped &&
        ((decode sampleRun).final.prevKind == some Kind.sql)) ∧
    (decode sampleRun).frags.countP isSqlOpen =
      (decode sampleRun).frags.countP isSqlClose +
        (cond (!(decode sampleRun).stopped &&
          ((decode sampleRun).final.prevKind == some Kind.sql)) 1 0)) :=
  ⟨by decide, c4_sql_fence_discipline sampleRun (by decide)⟩

/-- C5: for a suggestions block starting at a fresh block index, the first
delta for a suggestion index emits exactly one list-item marker, a repeated
delta for the same suggestion index emits none, and a subsequent delta for a
different suggestion index emits exactly one more. -/
theorem c5_suggestion_markers (s : DecState) (bi si sj : Nat) (t1 t2 t3 : String)
    (hblock : s.prevBlockIndex ≠ some bi) (hne : sj ≠ si) :
    ((decodeFrom s [Event.contentDelta bi (DeltaPayload.suggestionsDelta si t1)]).frags.countP
        isSuggMarker = 1) ∧
    ((decodeFrom s [Event.contentDelta bi (DeltaPayload.suggestionsDelta si t1),
        Event.contentDelta bi (DeltaPayload.suggestionsDelta si t2)]).frags.countP
        isSuggMarker = 1) ∧
    ((decodeFrom s [Event.contentDelta bi (DeltaPayload.suggestionsDelta si t1),
        Event.contentDelta bi (DeltaPayload.suggestionsDelta si t2),
        Event.contentDelta bi (DeltaPayload.suggestionsDelta sj t3)]).frags.countP
        isSuggMarker = 2) := by
  have hnb : (s.prevBlockIndex != some bi) = true := by simp [bne, hblock]
  have hsj : (some si != some sj) = true := by
    simp [bne]
    exact fun h => hne h.symm
  cases hsk : (s.prevKind == some Kind.sql) <;>
    simp [decodeFrom, isNewBlockFor, fenceCloseFrags, stepContent, hnb, hsk, hsj,
      List.countP_cons, isSuggMarker]

/-- Witness for C5 on a fresh accumulator with suggestion indices 0, 0, 1. -/
theorem c5_witness :
    (initState.prevBlockIndex ≠ some 0) ∧ (1 ≠ 0) ∧
    ((decodeFrom initState
        [Event.contentDelta 0 (DeltaPayload.suggestionsDelta 0 "a")]).frags.countP
        isSuggMarker = 1) ∧
    ((decodeFrom initState [Event.contentDelta 0 (DeltaPayload.suggestionsDelta 0 "a"),
        Event.contentDelta 0 (DeltaPayload.suggestionsDelta 0 "b")]).frags.countP
        isSuggMarker = 1) ∧
    ((decodeFrom initState [Event.contentDelta 0 (DeltaPayload.suggestionsDelta 0 "a"),
        Event.contentDelta 0 (DeltaPayload.suggestionsDelta 0 "b"),
        Event.contentDelta 0 (DeltaPayload.suggestionsDelta 1 "c")]).frags.countP
        isSuggMarker = 2) := by
  refine ⟨by decide, by decide, ?_⟩
  exact c5_suggestion_markers initState 0 0 1 "a" "b" "c" (by decide) (by decide)

/-- C6: once a status event is consumed, the decode pass emits nothing
further — the result is identical whatever events follow — and the status
message is recorded on the externally-owned status field. -/
theorem c6_status_halts_emission (s : DecState) (m : String) (rest : List Event) :
    decodeFrom s (Event.statusEvent m :: rest) = decodeFrom s [Event.statusEvent m] ∧
    (decodeFrom s (Event.statusEvent m :: rest)).statusMsg = some m :=
  ⟨rfl, rfl⟩

/-- C7: decoding is deterministic — any two decode runs of the identical
event sequence from a fresh accumulator produce the same result, fragments
included byte for byte. -/
theorem c7_decoding_deterministic (evs : List Event) (r1 r2 : DecodeResult)
    (h1 : Decodes initState evs r1) (h2 : Decodes initState evs r2) : r1 = r2 :=
  Decodes.deterministic h1 h2

/-- Witness for C7: two runs over a concrete stream agree. -/
theorem c7_witness :
    decodeFrom initState [Event.contentDelta 0 (DeltaPayload.sqlDelta "SELECT 1"),
        Event.statusEvent "done"] =
      decodeFrom initState [Event.contentDelta 0 (DeltaPayload.sqlDelta "SELECT 1"),
        Event.statusEvent "done"] :=
  c7_decoding_deterministic _ _ _
    (decodeFrom_decodes _ initState) (decodeFrom_decodes _ initState)

/-- C8: the per-turn warning state never leaks across turns — after any call
of `process_user_input` the warnings field holds exactly the warnings of the
new response (empty when the response carries none), independent of the
warnings held before the call; and `reset_session_state` clears it. -/
theorem c8_warnings_reset_per_turn (s : SessionState) (prompt : String) (resp : ApiResp) :
    (process_user_input s prompt resp).warnings = resp.parsed.warnings.getD [] ∧
    (reset_session_state s).warnings = [] := by
  refine ⟨?_, rfl⟩
  by_cases h : resp.status < 400 <;>
    cases hw : resp.parsed.warnings <;>
      simp [process_user_input, get_analyst_response, h, hw]

/-- C9: `get_query_exec_result` returns `(df, none)` on success and
`(none, str(e))` on a caught SnowparkSQLException, so exactly one component
of the returned pair is `none`, and no exception escapes to the caller. -/
theorem c9_query_exec_result_shape (q : String) (df : DataFrame) (e : String) :
    get_query_exec_result q (QueryOutcome.ok df) = (some df, none) ∧
    get_query_exec_result q (QueryOutcome.sqlError e) = (none, some e) ∧
    ∀ o : QueryOutcome,
      (get_query_exec_result q o).1.isSome = !(get_query_exec_result q o).2.isSome :=
  ⟨rfl, rfl, fun o => by cases o <;> rfl⟩

/-- C10: `display_warnings` displays, in order, exactly the messages of the
warnings whose message does not contain the substring
"synonyms are duplicated in the same table", and every displayed message is
free of that substring. -/
theorem c10_warning_filter (ws : List Warning) :
    display_warnings ws =
      (ws.map warningMsg).filter (fun m => !(strContains m duplicateSynonymNeedle)) ∧
    (display_warnings ws).all (fun m => !(strContains m duplicateSynonymNeedle)) = true := by
  have h1 : display_warnings ws =
      (ws.map warningMsg).filter (fun m => !(strContains m duplicateSynonymNeedle)) := by
    induction ws with
    | nil => rfl
    | cons w ws ih =>
      cases hc : strContains (warningMsg w) duplicateSynonymNeedle <;>
        simp [display_warnings, List.filter, hc, ih]
  refine ⟨h1, ?_⟩
  rw [h1]
  simp only [List.all_eq_true]
  intro m hm
  have := (List.mem_filter.mp hm).2
  simpa using this

end PaymentViews
